import Mathlib

/-!
Verification of the Canvas calendar generator's reconciliation pipeline.

This file gives a shallow embedding, in Lean, of the date-handling and
reconciliation logic of `canvas_calendar_generator.py`, `syllabus-calendar.py`
and `gpt_parser.py`, and proves the documented properties about it.

Conventions of the embedding:
* Python `datetime` values are modelled as Gregorian civil date/time records
  (`CivilDate`, `CivilTime`); timezone conversion (`astimezone`) is modelled
  as shifting the wall-clock by the zone's UTC offset in minutes
  (`addMinutes`), with proper Gregorian day/month/year carrying.
* `datetime.strptime` with the formats `%Y-%m-%d` and `%Y-%m-%dT%H:%M:%SZ`
  is modelled by `parseDate` / `parseDueAt`, following CPython's `_strptime`
  regexes: `%Y` is exactly four digits, `%m`/`%d`/`%H`/`%M`/`%S` are one or
  two digits with the usual ranges, and `datetime` construction additionally
  validates the day against the month length and rejects year 0.
* `datetime.strftime "%Y-%m-%dT%H:%M:%SZ"` is modelled by `formatCivil`
  (zero-padded fields).
* Python truthiness of optional strings (`if desc:`, `if not a.due_at:`)
  is modelled by `truthyS` (false exactly on `none` and on the empty string).
* The spaCy name-similarity score is an opaque parameter
  `sim : String → String → ℚ`; the code only compares scores.
* The external GPT backend and JSON decoding are opaque parameters
  (fallible calls are modelled with `Except` / `Option`).
-/

/-! ## Gregorian civil calendar arithmetic (model of Python `datetime`) -/

/-- Gregorian leap-year rule, as implemented by Python `datetime`. -/
def isLeap (y : Nat) : Bool :=
  y % 4 == 0 && (!(y % 100 == 0) || y % 400 == 0)

/-- Number of days in month `m` of year `y` (months are 1-based). -/
def daysInMonth (y m : Nat) : Nat :=
  match m with
  | 2 => if isLeap y then 29 else 28
  | 4 => 30
  | 6 => 30
  | 9 => 30
  | 11 => 30
  | _ => 31

/-- A civil calendar date (`datetime.date`): year, month (1-12), day. -/
structure CivilDate where
  y : Nat
  m : Nat
  d : Nat
deriving DecidableEq, Repr

/-- A civil date-time with minute/second precision (`datetime.datetime`). -/
structure CivilTime where
  date : CivilDate
  h : Nat
  mi : Nat
  s : Nat
deriving DecidableEq, Repr

/-- The ranges `datetime` enforces, restricted to four-digit years so that
`strftime %Y` produces exactly four digits. -/
def ValidCT (t : CivilTime) : Prop :=
  1 ≤ t.date.y ∧ t.date.y ≤ 9999 ∧ 1 ≤ t.date.m ∧ t.date.m ≤ 12 ∧
  1 ≤ t.date.d ∧ t.date.d ≤ daysInMonth t.date.y t.date.m ∧
  t.h ≤ 23 ∧ t.mi ≤ 59 ∧ t.s ≤ 59

instance (t : CivilTime) : Decidable (ValidCT t) := by
  unfold ValidCT; infer_instance

/-- The calendar day after `c`. -/
def nextDay (c : CivilDate) : CivilDate :=
  if c.d < daysInMonth c.y c.m then ⟨c.y, c.m, c.d + 1⟩
  else if c.m < 12 then ⟨c.y, c.m + 1, 1⟩
  else ⟨c.y + 1, 1, 1⟩

/-- The calendar day before `c`. -/
def prevDay (c : CivilDate) : CivilDate :=
  if 1 < c.d then ⟨c.y, c.m, c.d - 1⟩
  else if 1 < c.m then ⟨c.y, c.m - 1, daysInMonth c.y (c.m - 1)⟩
  else ⟨c.y - 1, 12, 31⟩

/-- Iterate a one-day step `n` times. -/
def stepDays (f : CivilDate → CivilDate) : Nat → CivilDate → CivilDate
  | 0, c => c
  | n + 1, c => stepDays f n (f c)

/-- Shift a civil date by an integer number of days. -/
def addDays (c : CivilDate) (n : Int) : CivilDate :=
  if 0 ≤ n then stepDays nextDay n.toNat c else stepDays prevDay (-n).toNat c

/-- Shift a civil date-time by `delta` minutes, carrying into the date.
This models arithmetic on timezone-aware `datetime` values: converting a
wall-clock time between zones shifts it by the difference of UTC offsets. -/
def addMinutes (t : CivilTime) (delta : Int) : CivilTime :=
  let total : Int := (t.h * 60 + t.mi : Nat) + delta
  let r := (total % 1440).toNat
  ⟨addDays t.date (total / 1440), r / 60, r % 60, t.s⟩

/-! ## strftime / strptime models -/

/-- The decimal digit character for `n` (defined for `n ≤ 9`). -/
def digitChar (n : Nat) : Char :=
  match n with
  | 0 => ('0')
  | 1 => ('1')
  | 2 => ('2')
  | 3 => ('3')
  | 4 => ('4')
  | 5 => ('5')
  | 6 => ('6')
  | 7 => ('7')
  | 8 => ('8')
  | _ => ('9')

/-- Numeric value of a digit character. -/
def dval (c : Char) : Nat := c.toNat - 48

/-- Two-digit zero-padded decimal rendering (as `strftime` does for
`%m %d %H %M %S`). -/
def pad2l (n : Nat) : List Char := [digitChar (n / 10), digitChar (n % 10)]

/-- Four-digit zero-padded decimal rendering (as `strftime` does for `%Y`). -/
def pad4l (n : Nat) : List Char :=
  [digitChar (n / 1000), digitChar (n / 100 % 10), digitChar (n / 10 % 10),
   digitChar (n % 10)]

/-- `strftime "%Y-%m-%dT%H:%M:%SZ"` on a civil date-time. -/
def formatCivil (t : CivilTime) : String :=
  String.mk (pad4l t.date.y ++ ['-'] ++ pad2l t.date.m ++ ['-'] ++
    pad2l t.date.d ++ ['T'] ++ pad2l t.h ++ [':'] ++ pad2l t.mi ++ [':'] ++
    pad2l t.s ++ ['Z'])

/-- The canonical zero-padded `YYYY-MM-DD` rendering of a date. -/
def fmtDate (y m d : Nat) : String :=
  String.mk (pad4l y ++ ['-'] ++ pad2l m ++ ['-'] ++ pad2l d)

/-- `strptime`'s `%Y` field: exactly four digits (CPython regex
`\d\d\d\d`). -/
def takeYear : List Char → Option (Nat × List Char)
  | a :: b :: c :: d :: rest =>
    if a.isDigit && b.isDigit && c.isDigit && d.isDigit then
      some (1000 * dval a + 100 * dval b + 10 * dval c + dval d, rest)
    else none
  | _ => none

/-- `strptime`'s one-or-two-digit numeric fields (`%m %d %H %M %S`): a
two-digit match with value in `[lo2, hi2]` is preferred, otherwise a single
digit with value in `[lo1, hi1]`.  This mirrors CPython's greedy regex
alternations such as `1[0-2]|0[1-9]|[1-9]` for `%m`. -/
def takeNum (lo2 hi2 lo1 hi1 : Nat) : List Char → Option (Nat × List Char)
  | a :: b :: rest =>
    if a.isDigit && b.isDigit && decide (lo2 ≤ 10 * dval a + dval b) &&
        decide (10 * dval a + dval b ≤ hi2) then
      some (10 * dval a + dval b, rest)
    else if a.isDigit && decide (lo1 ≤ dval a) && decide (dval a ≤ hi1) then
      some (dval a, b :: rest)
    else none
  | [a] =>
    if a.isDigit && decide (lo1 ≤ dval a) && decide (dval a ≤ hi1) then
      some (dval a, [])
    else none
  | [] => none

/-- Consume one expected literal character. -/
def takeLit (c : Char) : List Char → Option (List Char)
  | x :: rest => if x = c then some rest else none
  | [] => none

/-- `datetime.strptime(s, "%Y-%m-%d")` on the underlying characters,
including `datetime`'s validation of the day against the month length and
of the year being at least 1; the whole input must be consumed. -/
def parseDateChars (l : List Char) : Option CivilDate := do
  let (y, r1) ← takeYear l
  let r2 ← takeLit ('-') r1
  let (mo, r3) ← takeNum 1 12 1 9 r2
  let r4 ← takeLit ('-') r3
  let (d, r5) ← takeNum 1 31 1 9 r4
  if r5.isEmpty && decide (1 ≤ y) && decide (d ≤ daysInMonth y mo) then
    some ⟨y, mo, d⟩
  else none

/-- `datetime.strptime(s, "%Y-%m-%d")`, the date parser used by
`_apply_local_utc_date` and `_try_parse_date`. -/
def parseDate (s : String) : Option CivilDate := parseDateChars s.toList

/-- `datetime.strptime(s, "%Y-%m-%dT%H:%M:%SZ")` on the underlying
characters. -/
def parseDueAtChars (l : List Char) : Option CivilTime := do
  let (y, r1) ← takeYear l
  let r2 ← takeLit ('-') r1
  let (mo, r3) ← takeNum 1 12 1 9 r2
  let r4 ← takeLit ('-') r3
  let (d, r5) ← takeNum 1 31 1 9 r4
  let r6 ← takeLit ('T') r5
  let (h, r7) ← takeNum 0 23 0 9 r6
  let r8 ← takeLit (':') r7
  let (mi, r9) ← takeNum 0 59 0 9 r8
  let r10 ← takeLit (':') r9
  let (s2, r11) ← takeNum 0 59 0 9 r10
  let r12 ← takeLit ('Z') r11
  if r12.isEmpty && decide (1 ≤ y) && decide (d ≤ daysInMonth y mo) then
    some ⟨⟨y, mo, d⟩, h, mi, s2⟩
  else none

/-- `datetime.strptime(s, "%Y-%m-%dT%H:%M:%SZ")`, the stored-due-date parser
used by `_generate_calendar`. -/
def parseDueAt (s : String) : Option CivilTime := parseDueAtChars s.toList

/-! ## Data model: assignments and GPT candidate records -/

/-- A Canvas assignment as the reconciler sees it: a name, an optional
stored due instant (`due_at`, an ISO string or absent), and an optional
description.  `none` models Python `None`. -/
structure Asg where
  name : String
  due_at : Option String := none
  description : Option String := none
deriving DecidableEq, Repr

/-- One record of the GPT response list (a Python dict): `name` models
`item.get("name", "")` sources (absent key or explicit null gives a falsy
value), `due_date` and `description` model `item.get(...)`. -/
structure GItem where
  name : Option String := none
  due_date : Option String := none
  description : Option String := none
deriving DecidableEq, Repr

/-- Python truthiness of an optional string: `None` and `""` are falsy. -/
def truthyS : Option String → Bool
  | none => false
  | some s => !s.isEmpty

/-! ## Date Resolver (`_apply_local_utc_date`, canvas_calendar_generator.py
lines 360-371) -/

/-- `_apply_local_utc_date(assignment, date_str)`: parse `date_str` as
`%Y-%m-%d`; on success set the wall-clock to 23:59 in the configured local
zone, convert to UTC (subtract the zone's UTC offset at that local time,
`offAtLocal`, in minutes) and store `strftime("%Y-%m-%dT%H:%M:%SZ")` into
`due_at`; on `ValueError` (parse failure) the exception is caught and the
assignment is returned unchanged. -/
def applyLocalUtcDate (offAtLocal : CivilTime → Int) (a : Asg)
    (dateStr : String) : Asg :=
  match parseDate dateStr with
  | none => a
  | some dte =>
    let loc : CivilTime := ⟨dte, 23, 59, 0⟩
    let utc := addMinutes loc (-(offAtLocal loc))
    { a with due_at := some (formatCivil utc) }

/-! ## Reconciler (`_match_assignments_with_dates`, identical selection loop
in canvas_calendar_generator.py lines 342-351 and syllabus-calendar.py lines
250-259) -/

/-- The inner loop over `gpt_data`: running `(best_score, best_item)` state,
starting at `(0.0, None)`; items whose name (or the assignment's name) is
falsy are skipped; the state is updated exactly when `score > best_score`. -/
def bestAux (sim : String → String → ℚ) (aname : String) :
    List GItem → ℚ → Option GItem → ℚ × Option GItem
  | [], bs, bi => (bs, bi)
  | it :: rest, bs, bi =>
    let gname := it.name.getD ""
    if aname.isEmpty || gname.isEmpty then bestAux sim aname rest bs bi
    else if bs < sim aname gname then bestAux sim aname rest (sim aname gname) (some it)
    else bestAux sim aname rest bs bi

/-- The `best_item` found by the selection loop. -/
def bestCandidate (sim : String → String → ℚ) (aname : String)
    (items : List GItem) : Option GItem :=
  (bestAux sim aname items 0 none).2

/-- The body of `_match_assignments_with_dates` for one assignment in
`canvas_calendar_generator.py`: skip when `due_at` is truthy; otherwise run
the selection loop; if a best item was found, copy its description when
truthy, then apply its due date through `_apply_local_utc_date` when
truthy. -/
def matchOneC (offAtLocal : CivilTime → Int) (sim : String → String → ℚ)
    (items : List GItem) (a : Asg) : Asg :=
  if truthyS a.due_at then a
  else
    match bestCandidate sim a.name items with
    | none => a
    | some it =>
      let a1 := if truthyS it.description then
          { a with description := it.description } else a
      if truthyS it.due_date then
        applyLocalUtcDate offAtLocal a1 (it.due_date.getD "")
      else a1

/-- The body of `_match_assignments_with_dates` for one assignment in
`syllabus-calendar.py` (lines 246-266): identical selection, but the due
date is stored by appending the literal suffix `"T23:59:00Z"` to the raw
date string, with no parsing and no timezone conversion. -/
def matchOneS (sim : String → String → ℚ) (items : List GItem) (a : Asg) :
    Asg :=
  if truthyS a.due_at then a
  else
    match bestCandidate sim a.name items with
    | none => a
    | some it =>
      let a1 := if truthyS it.description then
          { a with description := it.description } else a
      if truthyS it.due_date then
        { a1 with due_at := some ((it.due_date.getD "") ++ "T23:59:00Z") }
      else a1

/-- `_match_assignments_with_dates(assignments, gpt_data)` of
`canvas_calendar_generator.py`: the loop body is independent per assignment
(it reads only the assignment itself and `gpt_data`), so in-place mutation
of the list is a map. -/
def matchAssignmentsC (offAtLocal : CivilTime → Int)
    (sim : String → String → ℚ) (items : List GItem) (asgs : List Asg) :
    List Asg :=
  asgs.map (matchOneC offAtLocal sim items)

/-! ## Specification-side description of the selection (for claim C3) -/

/-- Candidates that are actually scored: both the assignment name and the
candidate name are non-empty. -/
def validItems (aname : String) (items : List GItem) : List GItem :=
  items.filter (fun it => !aname.isEmpty && !(it.name.getD "").isEmpty)

/-- The maximal similarity score over the scored candidates, floored at 0. -/
def bestScoreSpec (sim : String → String → ℚ) (aname : String)
    (items : List GItem) : ℚ :=
  ((validItems aname items).map (fun it => sim aname (it.name.getD ""))).foldl max 0

/-- Modelled from the spec's words: the selected candidate is the
earliest-seen candidate whose similarity score equals the maximal score,
and no candidate is selected when the maximal score is zero or negative. -/
def bestCandidateSpec (sim : String → String → ℚ) (aname : String)
    (items : List GItem) : Option GItem :=
  if 0 < bestScoreSpec sim aname items then
    (validItems aname items).find?
      (fun it => decide (sim aname (it.name.getD "") = bestScoreSpec sim aname items))
  else none

/-! ## Source Cascade and Candidate Extractor steps (`process_course`,
canvas_calendar_generator.py lines 114-138; `parse_assignments_from_text`,
gpt_parser.py lines 16-49) -/

/-- Whether `s.strip()` is truthy: `s` contains a non-whitespace
character. -/
def hasContent (s : String) : Bool := s.toList.any (fun c => !c.isWhitespace)

/-- Step 3 of `process_course`: choose the corpus.  Returns the corpus text
together with a flag recording whether the front-page/files/modules
gathering step (`_gather_additional_text`) was invoked. -/
def selectCorpus (syllabusBody gathered : String) : String × Bool :=
  if hasContent syllabusBody then (syllabusBody, false) else (gathered, true)

/-- Step 4 of `process_course`: invoke the GPT extractor only when the
corpus is truthy after stripping.  Returns the extractor's candidate list
together with a flag recording whether the extractor was invoked;
`backend` stands for the value `parse_assignments_from_text` would
return. -/
def runExtraction (allText : String) (backend : List GItem) :
    Bool × List GItem :=
  if hasContent allText then (true, backend) else (false, [])

/-- `GPTParser.parse_assignments_from_text`: the backend call (transport)
may fail, and the JSON decode of the raw response may fail; both failures
are caught by the surrounding `try`/`except` which returns `[]`.
`transport` models the awaited ChatCompletion call producing the raw
response text, `decodeJson` models `json.loads`. -/
def parse_assignments_from_text (transport : Except String String)
    (decodeJson : String → Option (List GItem)) : List GItem :=
  match transport with
  | Except.error _ => []
  | Except.ok raw =>
    match decodeJson raw with
    | none => []
    | some items => items

/-! ## Calendar Emitter (`_generate_calendar`, canvas_calendar_generator.py
lines 430-470) -/

/-- One emitted VEVENT: summary, description, wall-clock start and end in
the display zone, and the TZID display parameter attached to each of
DTSTART and DTEND. -/
structure CalEvent where
  summary : String
  description : String
  dtstart : CivilTime
  startTzid : String
  dtend : CivilTime
  endTzid : String
deriving DecidableEq, Repr

/-- The event-building loop of `_generate_calendar`: skip assignments with
falsy `due_at` (`continue`), skip assignments whose `due_at` fails to parse
as `%Y-%m-%dT%H:%M:%SZ` (`except ValueError: continue`); otherwise convert
the UTC instant to the display zone (add the zone's offset at that instant,
`offAtUtc`), and emit an event with end = start + one hour and the
configured zone name as TZID on both ends. -/
def generateCalendarEvents (tz : String) (offAtUtc : CivilTime → Int)
    (courseName : String) : List Asg → List CalEvent
  | [] => []
  | a :: rest =>
    if !truthyS a.due_at then generateCalendarEvents tz offAtUtc courseName rest
    else
      match parseDueAt (a.due_at.getD "") with
      | none => generateCalendarEvents tz offAtUtc courseName rest
      | some c =>
        let loc := addMinutes c (offAtUtc c)
        { summary := courseName ++ " - " ++ a.name,
          description := a.description.getD "",
          dtstart := loc, startTzid := tz,
          dtend := addMinutes loc 60, endTzid := tz } ::
          generateCalendarEvents tz offAtUtc courseName rest

/-- Modelled from the spec's words: the single event derived from a dated
assignment (`none` when the assignment has no parseable due instant). -/
def eventFor (tz : String) (offAtUtc : CivilTime → Int) (courseName : String)
    (a : Asg) : Option CalEvent :=
  if !truthyS a.due_at then none
  else
    match parseDueAt (a.due_at.getD "") with
    | none => none
    | some c =>
      let start := addMinutes c (offAtUtc c)
      some { summary := courseName ++ " - " ++ a.name,
             description := a.description.getD "",
             dtstart := start, startTzid := tz,
             dtend := addMinutes start 60, endTzid := tz }

/-! ## A concrete timezone: America/New_York

Model of the IANA rules for America/New_York since 2007, at calendar-date
granularity (sufficient for the instants arising in this file, which are
nowhere near the 02:00 transitions): UTC-5, switching to UTC-4 from the
second Sunday of March through the first Sunday of November. -/

/-- Zeller's congruence for months `m ≥ 3`: day of week (0 = Saturday,
1 = Sunday, ...). -/
def zellerDow (y m d : Nat) : Nat :=
  (d + 13 * (m + 1) / 5 + y % 100 + y % 100 / 4 + y / 100 / 4 + 5 * (y / 100)) % 7

/-- Day of month of the first Sunday of month `m ≥ 3` of year `y`. -/
def firstSundayOf (y m : Nat) : Nat := 1 + (8 - zellerDow y m 1) % 7

/-- Whether US daylight saving time is in effect on the given date
(2007 rules). -/
def nyIsDST (c : CivilDate) : Bool :=
  decide ((3 < c.m ∧ c.m < 11) ∨
    (c.m = 3 ∧ firstSundayOf c.y 3 + 7 ≤ c.d) ∨
    (c.m = 11 ∧ c.d < firstSundayOf c.y 11))

/-- UTC offset, in minutes, of America/New_York at the given civil time. -/
def nyOffset (t : CivilTime) : Int :=
  if nyIsDST t.date then -240 else -300

/-- The zero-offset zone (UTC as the configured local timezone, the
default). -/
def utcOffset (_ : CivilTime) : Int := 0

/-! ## Helper lemmas: digits, padding, parsing round-trips -/

lemma digitChar_isDigit (n : Nat) (h : n < 10) : (digitChar n).isDigit = true := by
  interval_cases n <;> decide

lemma dval_digitChar (n : Nat) (h : n < 10) : dval (digitChar n) = n := by
  interval_cases n <;> decide

lemma takeYear_pad4 (y : Nat) (hy : y ≤ 9999) (rest : List Char) :
    takeYear (pad4l y ++ rest) = some (y, rest) := by
  have h1 : y / 1000 < 10 := by omega
  have h2 : y / 100 % 10 < 10 := by omega
  have h3 : y / 10 % 10 < 10 := by omega
  have h4 : y % 10 < 10 := by omega
  simp only [pad4l, List.cons_append, List.nil_append, takeYear,
    digitChar_isDigit _ h1, digitChar_isDigit _ h2, digitChar_isDigit _ h3,
    digitChar_isDigit _ h4, dval_digitChar _ h1, dval_digitChar _ h2,
    dval_digitChar _ h3, dval_digitChar _ h4, Bool.and_self, if_true]
  have hval : 1000 * (y / 1000) + 100 * (y / 100 % 10) + 10 * (y / 10 % 10) + y % 10 = y := by
    omega
  rw [hval]

lemma takeNum_pad2 (lo2 hi2 lo1 hi1 n : Nat) (rest : List Char)
    (hn : n ≤ 99) (hlo : lo2 ≤ n) (hhi : n ≤ hi2) :
    takeNum lo2 hi2 lo1 hi1 (pad2l n ++ rest) = some (n, rest) := by
  have h1 : n / 10 < 10 := by omega
  have h2 : n % 10 < 10 := by omega
  have hv : 10 * dval (digitChar (n / 10)) + dval (digitChar (n % 10)) = n := by
    rw [dval_digitChar _ h1, dval_digitChar _ h2]; omega
  simp only [pad2l, List.cons_append, List.nil_append, takeNum,
    digitChar_isDigit _ h1, digitChar_isDigit _ h2, hv, Bool.true_and]
  simp [hlo, hhi]

lemma takeLit_cons (c : Char) (rest : List Char) :
    takeLit c (c :: rest) = some rest := by
  simp [takeLit]

lemma daysInMonth_le (y m : Nat) : daysInMonth y m ≤ 31 := by
  unfold daysInMonth
  split
  · split <;> omega
  all_goals omega

/-- The stored string round-trips: formatting a valid civil time with
`strftime "%Y-%m-%dT%H:%M:%SZ"` and reading it back with the program's own
`strptime` recovers exactly the same civil time. -/
lemma parse_format_roundTrip (t : CivilTime) (hv : ValidCT t) :
    parseDueAt (formatCivil t) = some t := by
  rcases t with ⟨⟨y, mo, d⟩, hh, mm, ss⟩
  unfold ValidCT at hv
  dsimp only at hv
  obtain ⟨hy1, hy2, hm1, hm2, hd1, hd2, hhh, hmm, hss⟩ := hv
  have hd31 : d ≤ 31 := le_trans hd2 (daysInMonth_le y mo)
  have h99m : mo ≤ 99 := by omega
  have h99d : d ≤ 99 := by omega
  have h99h : hh ≤ 99 := by omega
  have h99mm : mm ≤ 99 := by omega
  have h99ss : ss ≤ 99 := by omega
  have hl : (formatCivil ⟨⟨y, mo, d⟩, hh, mm, ss⟩).toList =
      pad4l y ++ ('-') :: (pad2l mo ++ ('-') :: (pad2l d ++ ('T') ::
        (pad2l hh ++ (':') :: (pad2l mm ++ (':') :: (pad2l ss ++ [('Z')]))))) := by
    simp [formatCivil, String.toList, List.append_assoc]
  rw [parseDueAt, hl, parseDueAtChars]
  simp only [Option.bind_eq_bind, Option.some_bind, takeYear_pad4 y hy2,
    takeLit_cons, takeNum_pad2 1 12 1 9 mo _ h99m hm1 hm2,
    takeNum_pad2 1 31 1 9 d _ h99d hd1 hd31,
    takeNum_pad2 0 23 0 9 hh _ h99h (Nat.zero_le hh) hhh,
    takeNum_pad2 0 59 0 9 mm _ h99mm (Nat.zero_le mm) hmm,
    takeNum_pad2 0 59 0 9 ss _ h99ss (Nat.zero_le ss) hss]
  simp [hy1, hd2]

/-- The canonical `YYYY-MM-DD` rendering of a valid date parses back to
that date. -/
lemma parseDate_fmtDate (y mo d : Nat) (hy1 : 1 ≤ y) (hy2 : y ≤ 9999)
    (hm1 : 1 ≤ mo) (hm2 : mo ≤ 12) (hd1 : 1 ≤ d)
    (hd2 : d ≤ daysInMonth y mo) :
    parseDate (fmtDate y mo d) = some ⟨y, mo, d⟩ := by
  have hd31 : d ≤ 31 := le_trans hd2 (daysInMonth_le y mo)
  have h99m : mo ≤ 99 := by omega
  have h99d : d ≤ 99 := by omega
  have hl : (fmtDate y mo d).toList =
      pad4l y ++ ('-') :: (pad2l mo ++ ('-') :: pad2l d) := by
    simp [fmtDate, String.toList, List.append_assoc]
  rw [parseDate, hl, parseDateChars]
  simp only [Option.bind_eq_bind, Option.some_bind, takeYear_pad4 y hy2,
    takeLit_cons, takeNum_pad2 1 12 1 9 mo _ h99m hm1 hm2]
  have : pad2l d = pad2l d ++ [] := by simp
  rw [this, takeNum_pad2 1 31 1 9 d _ h99d hd1 hd31]
  simp [hy1, hd2]

/-- Shifting a civil time by zero minutes is the identity (the time-of-day
fields of any `datetime` are in range). -/
lemma addMinutes_zero (t : CivilTime) (hh : t.h ≤ 23) (hm : t.mi ≤ 59) :
    addMinutes t 0 = t := by
  rcases t with ⟨dte, h, mi, s⟩
  dsimp only at hh hm
  simp only [addMinutes]
  have he : (((h * 60 + mi : Nat) : Int) + 0) / 1440 = 0 := by omega
  have hr : ((((h * 60 + mi : Nat) : Int) + 0) % 1440).toNat = h * 60 + mi := by
    omega
  rw [he, hr]
  have h60 : (h * 60 + mi) / 60 = h := by omega
  have h60b : (h * 60 + mi) % 60 = mi := by omega
  simp [addDays, stepDays, h60, h60b]

/-! ## Helper lemmas: the strict-greater selection fold -/

lemma le_foldl_max (l : List ℚ) (b : ℚ) : b ≤ l.foldl max b := by
  induction l generalizing b with
  | nil => exact le_refl b
  | cons a l ih => exact le_trans (le_max_left b a) (ih (max b a))

/-- Characterization of the selection loop: starting from running state
`(bs, bi)`, the final best score is the maximum of `bs` and all scores of
scored candidates, and the final best item is the earliest-seen scored
candidate attaining that maximum when some candidate strictly beats `bs`,
and the initial `bi` otherwise. -/
lemma bestAux_eq (sim : String → String → ℚ) (aname : String)
    (items : List GItem) : ∀ (bs : ℚ) (bi : Option GItem),
    bestAux sim aname items bs bi =
      (((validItems aname items).map fun it => sim aname (it.name.getD "")).foldl max bs,
       if bs < ((validItems aname items).map fun it => sim aname (it.name.getD "")).foldl max bs
       then (validItems aname items).find? fun it =>
         decide (sim aname (it.name.getD "") =
           ((validItems aname items).map fun it => sim aname (it.name.getD "")).foldl max bs)
       else bi) := by
  induction items with
  | nil =>
    intro bs bi
    simp [bestAux, validItems]
  | cons it rest ih =>
    intro bs bi
    by_cases ha : aname.isEmpty = true
    · have hfil : validItems aname (it :: rest) = validItems aname rest := by
        simp [validItems, List.filter_cons, ha]
      have hstep : bestAux sim aname (it :: rest) bs bi =
          bestAux sim aname rest bs bi := by
        simp [bestAux, ha]
      rw [hstep, hfil]
      exact ih bs bi
    · by_cases hg : (it.name.getD "").isEmpty = true
      · have hfil : validItems aname (it :: rest) = validItems aname rest := by
          simp [validItems, List.filter_cons, ha, hg]
        have hstep : bestAux sim aname (it :: rest) bs bi =
            bestAux sim aname rest bs bi := by
          simp [bestAux, ha, hg]
        rw [hstep, hfil]
        exact ih bs bi
      · have hfil : validItems aname (it :: rest) = it :: validItems aname rest := by
          simp [validItems, List.filter_cons, ha, hg]
        have hstep : bestAux sim aname (it :: rest) bs bi =
            if bs < sim aname (it.name.getD "") then
              bestAux sim aname rest (sim aname (it.name.getD "")) (some it)
            else bestAux sim aname rest bs bi := by
          simp [bestAux, ha, hg]
        rw [hstep, hfil]
        simp only [List.map_cons, List.foldl_cons]
        by_cases hlt : bs < sim aname (it.name.getD "")
        · rw [if_pos hlt]
          simp only [max_eq_right hlt.le]
          rw [ih (sim aname (it.name.getD "")) (some it)]
          set M := ((validItems aname rest).map fun it =>
            sim aname (it.name.getD "")).foldl max (sim aname (it.name.getD "")) with hM
          have hscM : sim aname (it.name.getD "") ≤ M := hM ▸ le_foldl_max _ _
          have hbsM : bs < M := lt_of_lt_of_le hlt hscM
          rw [if_pos hbsM, List.find?_cons]
          by_cases heq : sim aname (it.name.getD "") = M
          · simp [heq]
          · have hlt2 := lt_of_le_of_ne hscM heq
            simp [heq, hlt2]
        · rw [if_neg hlt]
          simp only [max_eq_left (not_lt.mp hlt)]
          rw [ih bs bi]
          by_cases hbsM : bs < ((validItems aname rest).map fun it =>
              sim aname (it.name.getD "")).foldl max bs
          · have hne : ¬ sim aname (it.name.getD "") =
                ((validItems aname rest).map fun it => sim aname (it.name.getD "")).foldl
                  max bs := by
              intro hcontra
              exact absurd (lt_of_lt_of_le hbsM (le_of_eq hcontra.symm))
                (not_lt.mpr (not_lt.mp hlt))
            rw [if_pos hbsM, if_pos hbsM, List.find?_cons]
            simp [hne]
          · rw [if_neg hbsM, if_neg hbsM]

/-- The loop's best item equals the specification-side description. -/
lemma bestCandidate_eq_spec (sim : String → String → ℚ) (aname : String)
    (items : List GItem) :
    bestCandidate sim aname items = bestCandidateSpec sim aname items := by
  unfold bestCandidate bestCandidateSpec bestScoreSpec
  rw [bestAux_eq]

lemma matchOneC_of_none (off : CivilTime → Int) (sim : String → String → ℚ)
    (items : List GItem) (a : Asg)
    (h : bestCandidate sim a.name items = none) :
    matchOneC off sim items a = a := by
  by_cases hd : truthyS a.due_at <;> simp [matchOneC, h, hd]

lemma matchOneC_nil (off : CivilTime → Int) (sim : String → String → ℚ)
    (a : Asg) : matchOneC off sim [] a = a := by
  by_cases hd : truthyS a.due_at <;>
    simp [matchOneC, bestCandidate, bestAux, hd]

lemma applyLocalUtcDate_description (off : CivilTime → Int) (a : Asg)
    (s : String) : (applyLocalUtcDate off a s).description = a.description := by
  unfold applyLocalUtcDate
  rcases parseDate s with _ | dte <;> rfl

lemma bestCandidate_mem (sim : String → String → ℚ) (aname : String)
    (items : List GItem) (it : GItem)
    (h : bestCandidate sim aname items = some it) : it ∈ items := by
  rw [bestCandidate_eq_spec] at h
  unfold bestCandidateSpec at h
  split at h
  · exact List.mem_of_mem_filter (List.mem_of_find?_eq_some h)
  · exact absurd h (by simp)

lemma strmk_append (l1 l2 : List Char) :
    String.mk l1 ++ String.mk l2 = String.mk (l1 ++ l2) := rfl

/-- `strftime` of a date at 23:59:00 is the canonical date rendering
followed by the literal suffix `"T23:59:00Z"`. -/
lemma formatCivil_endOfDay (y mo d : Nat) :
    formatCivil ⟨⟨y, mo, d⟩, 23, 59, 0⟩ = fmtDate y mo d ++ "T23:59:00Z" := by
  have hsuf : ("T23:59:00Z" : String) =
      String.mk [('T'), ('2'), ('3'), (':'), ('5'), ('9'), (':'), ('0'), ('0'), ('Z')] := rfl
  rw [fmtDate, hsuf, strmk_append]
  unfold formatCivil
  simp [pad2l, digitChar, List.append_assoc]

lemma applyLocalUtcDate_of_parse_none (off : CivilTime → Int) (a : Asg)
    (s : String) (h : parseDate s = none) :
    applyLocalUtcDate off a s = a := by
  simp [applyLocalUtcDate, h]

/-! ## Concrete sample values used by witnesses and counterexamples -/

/-- A deterministic, symmetric stand-in similarity: 1 on equal names,
0 otherwise. -/
def simEq : String → String → ℚ := fun x y => if x = y then 1 else 0

def asgHW : Asg := { name := "HW 1" }

def asgQuiz : Asg := { name := "Quiz" }

def asgEssay : Asg := { name := "Essay" }

def asgDated : Asg :=
  { name := "HW 1", due_at := some "2025-09-01T04:00:00Z",
    description := some "keep me" }

def asgNoDue : Asg := { name := "Project" }

def itemHW : GItem :=
  { name := some "HW 1", due_date := some "2025-12-31",
    description := some "Read chapter 1" }

def itemBad : GItem :=
  { name := some "HW 1", due_date := some "99/99",
    description := some "Read chapter 1" }

def itemEssay : GItem :=
  { name := some "Essay", due_date := some "2025-09-01",
    description := none }

/-! ## Claim theorems -/

/-- C1: for every assignment already carrying a truthy (non-empty) due
instant and every candidate list, both revisions of
`_match_assignments_with_dates` leave the whole assignment — in particular
its due instant and its description — unchanged: the loop body starts with
`if getattr(a, "due_at", None): continue`. -/
theorem claim_C1_dated_assignment_untouched (off : CivilTime → Int)
    (sim : String → String → ℚ) (items : List GItem) (a : Asg)
    (h : truthyS a.due_at = true) :
    matchOneC off sim items a = a ∧ matchOneS sim items a = a := by
  constructor <;> simp [matchOneC, matchOneS, h]

theorem claim_C1_witness :
    truthyS asgDated.due_at = true ∧
    (matchOneC nyOffset simEq [itemHW] asgDated = asgDated ∧
      matchOneS simEq [itemHW] asgDated = asgDated) :=
  ⟨by decide,
   claim_C1_dated_assignment_untouched nyOffset simEq [itemHW] asgDated (by decide)⟩

/-- C2: on a parseable `YYYY-MM-DD` input, `_apply_local_utc_date` stores
exactly the instant 23:59 of that calendar date in the assumed local zone
shifted to UTC by the zone's offset, rendered by
`strftime("%Y-%m-%dT%H:%M:%SZ")` (second precision, literal Z); reading
the stored string back with the program's own `strptime` recovers that
instant exactly.  The witness instantiates the claimed example:
`resolve("2025-09-01", "America/New_York") = 2025-09-02T03:59:00Z`. -/
theorem claim_C2_end_of_day_utc_storage (off : CivilTime → Int) (a : Asg)
    (s : String) (y mo d : Nat) (hp : parseDate s = some ⟨y, mo, d⟩)
    (hv : ValidCT (addMinutes ⟨⟨y, mo, d⟩, 23, 59, 0⟩
      (-(off ⟨⟨y, mo, d⟩, 23, 59, 0⟩)))) :
    (applyLocalUtcDate off a s).due_at =
      some (formatCivil (addMinutes ⟨⟨y, mo, d⟩, 23, 59, 0⟩
        (-(off ⟨⟨y, mo, d⟩, 23, 59, 0⟩)))) ∧
    parseDueAt (formatCivil (addMinutes ⟨⟨y, mo, d⟩, 23, 59, 0⟩
        (-(off ⟨⟨y, mo, d⟩, 23, 59, 0⟩)))) =
      some (addMinutes ⟨⟨y, mo, d⟩, 23, 59, 0⟩
        (-(off ⟨⟨y, mo, d⟩, 23, 59, 0⟩))) := by
  constructor
  · simp [applyLocalUtcDate, hp]
  · exact parse_format_roundTrip _ hv

theorem claim_C2_witness :
    parseDate "2025-09-01" = some ⟨2025, 9, 1⟩ ∧
    ((applyLocalUtcDate nyOffset asgEssay "2025-09-01").due_at =
        some (formatCivil (addMinutes ⟨⟨2025, 9, 1⟩, 23, 59, 0⟩
          (-(nyOffset ⟨⟨2025, 9, 1⟩, 23, 59, 0⟩)))) ∧
      parseDueAt (formatCivil (addMinutes ⟨⟨2025, 9, 1⟩, 23, 59, 0⟩
          (-(nyOffset ⟨⟨2025, 9, 1⟩, 23, 59, 0⟩)))) =
        some (addMinutes ⟨⟨2025, 9, 1⟩, 23, 59, 0⟩
          (-(nyOffset ⟨⟨2025, 9, 1⟩, 23, 59, 0⟩)))) ∧
    formatCivil (addMinutes ⟨⟨2025, 9, 1⟩, 23, 59, 0⟩
        (-(nyOffset ⟨⟨2025, 9, 1⟩, 23, 59, 0⟩))) = "2025-09-02T03:59:00Z" :=
  ⟨by decide,
   claim_C2_end_of_day_utc_storage nyOffset asgEssay "2025-09-01" 2025 9 1
     (by decide) (by decide),
   by decide⟩

/-- C3: the selection loop computes exactly the specification-side best
candidate: the earliest-seen scored candidate attaining the maximal
similarity score, selected only when that maximum is strictly positive
(the fold starts at 0.0 and updates on strict `>` only, so ties keep the
earliest candidate and zero/negative best scores select nothing); and
when nothing is selected — in particular when the assignment has no name
or no candidate has a name, since such pairs are skipped — the assignment
is left untouched. -/
theorem claim_C3_best_candidate_selection (off : CivilTime → Int)
    (sim : String → String → ℚ) (items : List GItem) (a : Asg) :
    bestCandidate sim a.name items = bestCandidateSpec sim a.name items ∧
    (bestCandidateSpec sim a.name items = none →
      matchOneC off sim items a = a) := by
  refine ⟨bestCandidate_eq_spec sim a.name items, fun h => ?_⟩
  exact matchOneC_of_none off sim items a
    ((bestCandidate_eq_spec sim a.name items).trans h)

theorem claim_C3_witness :
    (bestCandidate simEq "Quiz" [itemHW] = bestCandidateSpec simEq "Quiz" [itemHW]) ∧
    matchOneC utcOffset simEq [itemHW] asgQuiz = asgQuiz :=
  ⟨(claim_C3_best_candidate_selection utcOffset simEq [itemHW] asgQuiz).1,
   (claim_C3_best_candidate_selection utcOffset simEq [itemHW] asgQuiz).2 (by decide)⟩

/-- C4 counterexample: the two revisions do NOT compute the same stored
`due_at` for every configured local timezone.  With America/New_York and
candidate due date 2025-12-31, `canvas_calendar_generator.py` stores the
UTC conversion of 23:59 EST (2026-01-01T04:59:00Z) while
`syllabus-calendar.py` stores the raw concatenation
2025-12-31T23:59:00Z. -/
theorem claim_C4_counterexample :
    (matchOneC nyOffset simEq [itemHW] asgHW).due_at ≠
      (matchOneS simEq [itemHW] asgHW).due_at ∧
    (matchOneC nyOffset simEq [itemHW] asgHW).due_at =
      some "2026-01-01T04:59:00Z" ∧
    (matchOneS simEq [itemHW] asgHW).due_at =
      some "2025-12-31T23:59:00Z" := by
  refine ⟨by decide, by decide, by decide⟩

/-- C4, amended: the two revisions of `_match_assignments_with_dates`
agree exactly when the configured local timezone has zero UTC offset
(i.e. is UTC, the constructor default) and every candidate due date that
is present and non-empty is a canonical zero-padded valid `YYYY-MM-DD`
calendar date. -/
theorem claim_C4_amended_utc_equivalence (sim : String → String → ℚ)
    (items : List GItem) (a : Asg)
    (hitems : ∀ it ∈ items, ∀ dd, it.due_date = some dd →
      dd.isEmpty = false →
      ∃ y mo d, 1 ≤ y ∧ y ≤ 9999 ∧ 1 ≤ mo ∧ mo ≤ 12 ∧ 1 ≤ d ∧
        d ≤ daysInMonth y mo ∧ dd = fmtDate y mo d) :
    matchOneC utcOffset sim items a = matchOneS sim items a := by
  unfold matchOneC matchOneS
  by_cases hd : truthyS a.due_at
  · simp [hd]
  · simp only [hd, Bool.false_eq_true, if_false]
    rcases hbc : bestCandidate sim a.name items with _ | it
    · rfl
    · have hmem : it ∈ items := bestCandidate_mem sim a.name items it hbc
      rcases hdd : it.due_date with _ | dd
      · simp [truthyS, hdd]
      · by_cases hne : dd.isEmpty
        · simp [truthyS, hdd, hne]
        · obtain ⟨y, mo, d, hy1, hy2, hm1, hm2, hd1, hd2, rfl⟩ :=
            hitems it hmem dd hdd (Bool.not_eq_true _ ▸ (by simpa using hne))
          have hcond : truthyS (some (fmtDate y mo d)) = true := by
            cases hemp : (fmtDate y mo d).isEmpty
            · simp [truthyS, hemp]
            · exact absurd hemp (by simpa using hne)
          simp only [hdd, Option.getD_some, hcond, if_true]
          unfold applyLocalUtcDate
          rw [parseDate_fmtDate y mo d hy1 hy2 hm1 hm2 hd1 hd2]
          dsimp only
          rw [show -(utcOffset ⟨⟨y, mo, d⟩, 23, 59, 0⟩) = (0 : Int) from rfl]
          rw [addMinutes_zero _ (Nat.le_refl 23) (Nat.le_refl 59),
            formatCivil_endOfDay]

theorem claim_C4_amended_witness :
    matchOneC utcOffset simEq [itemHW] asgHW = matchOneS simEq [itemHW] asgHW :=
  claim_C4_amended_utc_equivalence simEq [itemHW] asgHW (by
    intro it hit dd hdd hne
    rw [List.mem_singleton] at hit
    subst hit
    have hdd2 : dd = "2025-12-31" := by
      have : some "2025-12-31" = some dd := hdd
      exact (Option.some.inj this).symm
    subst hdd2
    exact ⟨2025, 12, 31, by decide, by decide, by decide, by decide,
      by decide, by decide, by decide⟩)

/-- C5: on input that `strptime("%Y-%m-%d")` rejects,
`_apply_local_utc_date` catches the `ValueError`, logs, and returns with
the assignment exactly as it was — every field unchanged and no exception
propagating (the model is a total function). -/
theorem claim_C5_invalid_date_is_noop (off : CivilTime → Int) (a : Asg)
    (s : String) (h : parseDate s = none) :
    applyLocalUtcDate off a s = a := by
  simp [applyLocalUtcDate, h]

theorem claim_C5_witness :
    parseDate "not-a-date" = none ∧
    applyLocalUtcDate nyOffset asgDated "not-a-date" = asgDated :=
  ⟨by decide,
   claim_C5_invalid_date_is_noop nyOffset asgDated "not-a-date" (by decide)⟩

/-- C6: `_generate_calendar` emits exactly one event per assignment whose
`due_at` is truthy and parseable (all others are silently skipped by
`continue`, never an error): the loop equals a `filterMap`; every emitted
event ends exactly one hour after it starts and carries the configured
zone name as the TZID display parameter on both DTSTART and DTEND; an
assignment with truthy parseable `due_at` yields exactly the event titled
`"<courseName> - <assignmentName>"` whose start is the stored UTC instant
shifted into the display zone. -/
theorem claim_C6_calendar_emission (tz : String) (off : CivilTime → Int)
    (cn : String) (asgs : List Asg) :
    generateCalendarEvents tz off cn asgs = asgs.filterMap (eventFor tz off cn) ∧
    (∀ e ∈ generateCalendarEvents tz off cn asgs,
      e.dtend = addMinutes e.dtstart 60 ∧ e.startTzid = tz ∧ e.endTzid = tz) ∧
    (∀ a : Asg, truthyS a.due_at = false → eventFor tz off cn a = none) ∧
    (∀ (a : Asg) (c : CivilTime), truthyS a.due_at = true →
      parseDueAt (a.due_at.getD "") = some c →
      eventFor tz off cn a = some
        { summary := cn ++ " - " ++ a.name,
          description := a.description.getD "",
          dtstart := addMinutes c (off c), startTzid := tz,
          dtend := addMinutes (addMinutes c (off c)) 60, endTzid := tz }) := by
  have hmain : generateCalendarEvents tz off cn asgs =
      asgs.filterMap (eventFor tz off cn) := by
    induction asgs with
    | nil => rfl
    | cons a rest ih =>
      by_cases hd : truthyS a.due_at
      · rcases hp : parseDueAt (a.due_at.getD "") with _ | c <;>
          simp [generateCalendarEvents, eventFor, hd, hp,
            List.filterMap_cons, ih]
      · simp [generateCalendarEvents, eventFor, hd, List.filterMap_cons, ih]
  refine ⟨hmain, ?_, ?_, ?_⟩
  · intro e he
    rw [hmain] at he
    rcases List.mem_filterMap.mp he with ⟨a, _, hea⟩
    unfold eventFor at hea
    by_cases hd : truthyS a.due_at
    · rcases hp : parseDueAt (a.due_at.getD "") with _ | c
      · rw [hp] at hea
        simp [hd] at hea
      · rw [hp] at hea
        simp only [hd, Bool.not_true, Bool.false_eq_true, if_false] at hea
        obtain rfl := Option.some.inj hea
        exact ⟨rfl, rfl, rfl⟩
    · simp [hd] at hea
  · intro a hfalse
    simp [eventFor, hfalse]
  · intro a c htrue hp
    simp [eventFor, htrue, hp]

theorem claim_C6_witness :
    generateCalendarEvents "America/New_York" nyOffset "CS 101"
        [asgDated, asgNoDue] =
      [asgDated, asgNoDue].filterMap
        (eventFor "America/New_York" nyOffset "CS 101") ∧
    eventFor "America/New_York" nyOffset "CS 101" asgNoDue = none :=
  ⟨(claim_C6_calendar_emission "America/New_York" nyOffset "CS 101"
      [asgDated, asgNoDue]).1,
   (claim_C6_calendar_emission "America/New_York" nyOffset "CS 101"
      [asgDated, asgNoDue]).2.2.1 asgNoDue (by decide)⟩

/-- C7: step 3 of `process_course` uses the inline `syllabus_body` as the
whole corpus whenever it is non-blank after stripping, and probes the
front-page/files/modules gathering step only when it is blank. -/
theorem claim_C7_inline_description_short_circuit (sb g : String) :
    (hasContent sb = true → selectCorpus sb g = (sb, false)) ∧
    ((selectCorpus sb g).2 = true → hasContent sb = false) := by
  constructor
  · intro h
    simp [selectCorpus, h]
  · intro h
    cases hc : hasContent sb
    · rfl
    · rw [selectCorpus, if_pos hc] at h
      simp at h

theorem claim_C7_witness :
    selectCorpus "Week 1 homework due 2025-09-01" "gathered text" =
      ("Week 1 homework due 2025-09-01", false) ∧
    hasContent "   " = false :=
  ⟨(claim_C7_inline_description_short_circuit
      "Week 1 homework due 2025-09-01" "gathered text").1 (by decide),
   (claim_C7_inline_description_short_circuit "   " "gathered text").2
     (by decide)⟩

/-- C8: when the gathered corpus is blank (no non-whitespace character),
step 4 of `process_course` never invokes the GPT extractor and the
candidate list stays empty, and cross-referencing with an empty candidate
list leaves every assignment exactly as it was — no assignment gains a due
date from this path. -/
theorem claim_C8_empty_corpus_short_circuit (t : String)
    (backend : List GItem) (off : CivilTime → Int)
    (sim : String → String → ℚ) (asgs : List Asg)
    (h : hasContent t = false) :
    runExtraction t backend = (false, []) ∧
    matchAssignmentsC off sim [] asgs = asgs := by
  constructor
  · simp [runExtraction, h]
  · unfold matchAssignmentsC
    induction asgs with
    | nil => rfl
    | cons a rest ih =>
      rw [List.map_cons, matchOneC_nil off sim a, ih]

theorem claim_C8_witness :
    runExtraction "  \n  " [itemHW] = (false, []) ∧
    matchAssignmentsC utcOffset simEq [] [asgHW, asgNoDue] = [asgHW, asgNoDue] :=
  claim_C8_empty_corpus_short_circuit "  \n  " [itemHW] utcOffset simEq
    [asgHW, asgNoDue] (by decide)

/-- C9: `parse_assignments_from_text` returns the empty list both when the
backend call fails (transport error) and when the response is not
parseable JSON; the surrounding `try`/`except` makes it a total function,
so no exception reaches the caller. -/
theorem claim_C9_gpt_failure_yields_empty
    (decodeJson : String → Option (List GItem)) (err raw : String) :
    parse_assignments_from_text (Except.error err) decodeJson = [] ∧
    (decodeJson raw = none →
      parse_assignments_from_text (Except.ok raw) decodeJson = []) := by
  constructor
  · rfl
  · intro h
    simp [parse_assignments_from_text, h]

theorem claim_C9_witness :
    parse_assignments_from_text (Except.error "rate limit")
        (fun _ => none) = [] ∧
    parse_assignments_from_text (Except.ok "not valid json")
        (fun _ => none) = [] :=
  ⟨(claim_C9_gpt_failure_yields_empty (fun _ => none) "rate limit"
      "not valid json").1,
   (claim_C9_gpt_failure_yields_empty (fun _ => none) "rate limit"
      "not valid json").2 rfl⟩

/-- C10: description application is not atomic with date application.
Once a best candidate is selected for an undated assignment, the resulting
description is the candidate's whenever that is truthy (and the old one
otherwise, so an empty-string candidate description never overwrites) —
independently of the due date; and when the candidate's due date is absent
or fails to parse, the result is exactly the assignment with only the
description update applied: the already-applied description is never
rolled back. -/
theorem claim_C10_description_update_not_atomic (off : CivilTime → Int)
    (sim : String → String → ℚ) (items : List GItem) (a : Asg) (it : GItem)
    (h1 : truthyS a.due_at = false)
    (h2 : bestCandidate sim a.name items = some it) :
    (matchOneC off sim items a).description =
      (if truthyS it.description then it.description else a.description) ∧
    (∀ dd, it.due_date = some dd → parseDate dd = none →
      matchOneC off sim items a =
        (if truthyS it.description then
          { a with description := it.description } else a)) ∧
    (truthyS it.due_date = false →
      matchOneC off sim items a =
        (if truthyS it.description then
          { a with description := it.description } else a)) := by
  have hbody : matchOneC off sim items a =
      (if truthyS it.due_date then
        applyLocalUtcDate off
          (if truthyS it.description then
            { a with description := it.description } else a)
          (it.due_date.getD "")
      else
        (if truthyS it.description then
          { a with description := it.description } else a)) := by
    rw [matchOneC, if_neg (by simp [h1]), h2]
  refine ⟨?_, ?_, ?_⟩
  · rw [hbody]
    by_cases hdd : truthyS it.due_date
    · rw [if_pos hdd, applyLocalUtcDate_description]
      by_cases hde : truthyS it.description <;> simp [hde]
    · rw [if_neg hdd]
      by_cases hde : truthyS it.description <;> simp [hde]
  · intro dd hdd hparse
    rw [hbody]
    by_cases htd : truthyS it.due_date
    · rw [if_pos htd, hdd, Option.getD_some,
        applyLocalUtcDate_of_parse_none off _ dd hparse]
    · rw [if_neg htd]
  · intro htd
    rw [hbody, if_neg (by simp [htd])]

theorem claim_C10_witness :
    (matchOneC utcOffset simEq [itemBad] asgHW).description =
      some "Read chapter 1" ∧
    matchOneC utcOffset simEq [itemBad] asgHW =
      { asgHW with description := some "Read chapter 1" } :=
  ⟨((claim_C10_description_update_not_atomic utcOffset simEq [itemBad]
      asgHW itemBad (by decide) (by decide)).1).trans (by decide),
   ((claim_C10_description_update_not_atomic utcOffset simEq [itemBad]
      asgHW itemBad (by decide) (by decide)).2.1 "99/99" rfl
      (by decide)).trans (by decide)⟩
